import Mathlib

/-!
Shallow embedding of `graham_scan.py` (Graham-scan convex hull).

Coordinates are modelled as exact integers (`ℤ`); the repository feeds the
pipeline integer point coordinates, and at every concrete input used below the
exactness of the model agrees with the numpy int64 / float64 computations
(all slope keys are pairwise distinct and exactly ordered the same way as
their float64 counterparts, so the argsort result is uniquely determined).

Python / numpy failure modes are made explicit:
 - `np.argmin` on an empty array raises `ValueError`;
 - scalar and negative indexing follow Python semantics (wrap once from the
   end, `IndexError` beyond that);
 - slicing clamps silently;
 - integer division `y / x` is numpy float64 true division: for `x ≠ 0` it is
   the exact ratio (modelled in `ℚ`), for `x = 0` it yields `±inf` (or `nan`
   for `0 / 0`) with only a warning, and those values participate in sorting
   with `nan` ordered last, as numpy's argsort does.
-/

/-- A 2-D point, as a row `[x, y]` of the numpy input array. -/
abbrev Point := ℤ × ℤ

/-- Errors that the embedded computation can surface.  `valueError` and
`indexError` mirror the exceptions numpy actually raises.  `emptyInputError`
and `degenerateGeometryError` are the error classes named by the spec
(modelled from the spec; the source defines no such classes), included so
that claims mentioning them are expressible.  `fuelOut` is an artifact of the
fuel-based embedding of the backtracking `while` loop; the loop's cursor
strictly decreases, so with the fuel supplied below it is never reached at
the inputs evaluated here. -/
inductive PyErr where
  | valueError
  | indexError
  | emptyInputError
  | degenerateGeometryError
  | fuelOut
deriving DecidableEq, Repr

/-- `ccw` from the source: the orientation test with its tie-break cascade.
Return values follow the code: `1` ("clockwise" per the docstring, the
spec's *right-turn*), `-1` (spec's *left-turn*), `0` (collinear). -/
def ccw (p1 p2 p3 : Point) : Int :=
  let dx1 := p2.1 - p1.1
  let dy1 := p2.2 - p1.2
  let dx2 := p3.1 - p1.1
  let dy2 := p3.2 - p1.2
  let dx1dy2 := dx1 * dy2
  let dy1dx2 := dy1 * dx2
  if dx1dy2 > dy1dx2 then 1
  else if dx1dy2 < dy1dx2 then -1
  else if dx1 * dx2 < 0 ∨ dy1 * dy2 < 0 then -1
  else if dx1 * dx1 + dy1 * dy1 < dx2 * dx2 + dy2 * dy2 then 1
  else 0

/-- Modelled from the spec: the orientation-test cascade exactly as §4.1 and
claim C2 word it, with the opposite-sign test spelled out literally
("x-components have opposite signs or y-components have opposite signs")
instead of the code's sign-of-product trick.  For comparison with `ccw`. -/
def ccwSpec (p1 p2 p3 : Point) : Int :=
  let dx1 := p2.1 - p1.1
  let dy1 := p2.2 - p1.2
  let dx2 := p3.1 - p1.1
  let dy2 := p3.2 - p1.2
  if dx1 * dy2 > dy1 * dx2 then 1
  else if dx1 * dy2 < dy1 * dx2 then -1
  else if (0 < dx1 ∧ dx2 < 0 ∨ dx1 < 0 ∧ 0 < dx2) ∨
          (0 < dy1 ∧ dy2 < 0 ∨ dy1 < 0 ∧ 0 < dy2) then -1
  else if dx1 * dx1 + dy1 * dy1 < dx2 * dx2 + dy2 * dy2 then 1
  else 0

/-- Row-major flattening of the `(n, 2)` numpy array, as `np.argmin` sees it. -/
def flatten : List Point → List ℤ
  | [] => []
  | p :: ps => p.1 :: p.2 :: flatten ps

/-- Index of the first occurrence of the minimum (running scan). -/
def argminAux : List ℤ → ℤ → Nat → Nat → Nat
  | [], _, _, best => best
  | x :: xs, bv, i, best =>
      if x < bv then argminAux xs x (i + 1) i else argminAux xs bv (i + 1) best

/-- `np.argmin`: first index of the minimum of the flattened array;
`none` (ValueError) on an empty array. -/
def argmin : List ℤ → Option Nat
  | [] => none
  | x :: xs => some (argminAux xs x 1 0)

/-- `extract_primary` from the source.  Note that `np.argmin(points)` runs
over the FLATTENED `(n, 2)` array, so `min_point_idx` is a flat index; the
code then uses it as a ROW index (`points[min_point_idx]`), raising
`IndexError` when the flat index is at least the number of rows. -/
def extract_primary (points : List Point) :
    Except PyErr (Point × List Point) :=
  match argmin (flatten points) with
  | none => Except.error PyErr.valueError
  | some k =>
    match points[k]? with
    | none => Except.error PyErr.indexError
    | some primary => Except.ok (primary, points.take k ++ points.drop (k + 1))

/-- The value of the numpy float64 division `v[1] / v[0]`: exact rational for
`v[0] ≠ 0`, otherwise `±inf` / `nan` (numpy emits only a warning). -/
inductive Slope where
  | negInf
  | fin (q : ℚ)
  | posInf
  | nan
deriving DecidableEq, Repr

/-- Slope key of a point, `p.y / p.x` on the raw coordinates.  The exact
ratio is built with `Rat.divInt` (which the kernel evaluates); the lemma
`slopeKey_eq_div` below identifies it with the division `p.y / p.x` in `ℚ`. -/
def slopeKey (p : Point) : Slope :=
  if p.1 = 0 then
    (if 0 < p.2 then Slope.posInf else if p.2 < 0 then Slope.negInf
     else Slope.nan)
  else Slope.fin (Rat.divInt p.2 p.1)

/-- On a nonzero x-coordinate the slope key is the rational ratio `y / x`. -/
theorem slopeKey_eq_div (p : Point) (h : p.1 ≠ 0) :
    slopeKey p = Slope.fin ((p.2 : ℚ) / (p.1 : ℚ)) := by
  unfold slopeKey
  rw [if_neg h, Rat.divInt_eq_div]

/-- Strict order on slope keys as numpy sorts them:
`-inf < finite < +inf < nan` (argsort places `nan` last). -/
def slopeLtB : Slope → Slope → Bool
  | Slope.negInf, Slope.negInf => false
  | Slope.negInf, _ => true
  | Slope.fin _, Slope.negInf => false
  | Slope.fin a, Slope.fin b => decide (a < b)
  | Slope.fin _, _ => true
  | Slope.posInf, Slope.nan => true
  | Slope.posInf, _ => false
  | Slope.nan, _ => false

/-- Insert a point into a slope-sorted list, after any equal keys. -/
def insertBySlope (x : Point) : List Point → List Point
  | [] => [x]
  | y :: ys =>
      if slopeLtB (slopeKey x) (slopeKey y) then x :: y :: ys
      else y :: insertBySlope x ys

/-- `points[np.argsort(point_slopes)]`: the points in ascending slope order.
Embedded as a stable insertion sort; at every input evaluated below the
slope keys are either pairwise distinct or attached to identical points, so
this coincides with numpy's argsort regardless of argsort's tie behavior. -/
def sortBySlope (l : List Point) : List Point :=
  l.foldl (fun acc x => insertBySlope x acc) []

/-- `sort_for_graham_scan` from the source: sort by raw `y/x` slope, then
build `[sorted[-1]] ++ [primary] ++ sorted` (Python `sorted_points[-1:]` is
the empty slice when there are no remaining points). -/
def sort_for_graham_scan (points : List Point) (primary : Point) :
    List Point :=
  let sorted := sortBySlope points
  let sentinel := match sorted.getLast? with
    | some s => [s]
    | none => []
  sentinel ++ [primary] ++ sorted

/-- Python indexing: non-negative indices are used directly, negative indices
wrap once from the end, anything else is an `IndexError` (`none`). -/
def npIdx (n : Nat) (i : Int) : Option Nat :=
  if 0 ≤ i ∧ i < (n : Int) then some i.toNat
  else if -(n : Int) ≤ i ∧ i < 0 then some (i + (n : Int)).toNat
  else none

/-- Read `a[i]` with Python index semantics. -/
def npGet (a : Array Point) (i : Int) : Option Point :=
  match npIdx a.size i with
  | some k => a[k]?
  | none => none

/-- `swap` from the source (`tmp = copy(a[li]); a[li] = a[ri]; a[ri] = tmp`),
with Python index semantics. -/
def swap (a : Array Point) (li ri : Int) : Option (Array Point) :=
  match npIdx a.size li, npIdx a.size ri with
  | some l, some r =>
      let tmp := a.getD l ((0 : ℤ), (0 : ℤ))
      some ((a.setD l (a.getD r ((0 : ℤ), (0 : ℤ)))).setD r tmp)
  | _, _ => none

/-- Python slice `l[start:stop]` (step 1): negative endpoints wrap once,
then both are clamped — slicing never raises. -/
def pySliceList (l : List Point) (start stop : Int) : List Point :=
  let n : Int := l.length
  let s := if start < 0 then start + n else start
  let e := if stop < 0 then stop + n else stop
  let s2 := (max 0 (min s n)).toNat
  let e2 := (max 0 (min e n)).toNat
  (l.take e2).drop s2

/-- The inner `while ccw(points[M], points[M-1], points[i]) >= 0: M -= 1`
loop of `find_hull_vertices`.  The source has NO lower bound on `M`: the
cursor may run past the pivot (index 1), the sentinel (index 0) and into
Python's negative-index range until an out-of-range read raises
`IndexError`.  Since `M` strictly decreases each iteration, a fuel of
`M.toNat + a.size + 2` always outlasts the loop. -/
def backtrack (a : Array Point) (i : Int) : Nat → Int → Except PyErr Int
  | 0, _ => Except.error PyErr.fuelOut
  | Nat.succ fuel, m =>
    match npGet a m, npGet a (m - 1), npGet a i with
    | some pm, some pm1, some pi =>
        if ccw pm pm1 pi ≥ 0 then backtrack a i fuel (m - 1)
        else Except.ok m
    | _, _, _ => Except.error PyErr.indexError

/-- The `for i in range(4, N)` loop of `find_hull_vertices`: backtrack, then
`M += 1` and `swap(points, M, i)`. -/
def sweep : List Int → Array Point → Int → Except PyErr (Array Point × Int)
  | [], a, m => Except.ok (a, m)
  | i :: is, a, m =>
    match backtrack a i (m.toNat + a.size + 2) m with
    | Except.error e => Except.error e
    | Except.ok m0 =>
      match swap a (m0 + 1) i with
      | none => Except.error PyErr.indexError
      | some a2 => sweep is a2 (m0 + 1)

/-- `find_hull_vertices` from the source: `M = 3`, scan `i in range(4, N)`,
return `points[1:M+1]`. -/
def find_hull_vertices (pts : List Point) : Except PyErr (List Point) :=
  let a := pts.toArray
  match sweep (((List.range a.size).drop 4).map (fun n => (n : Int))) a 3 with
  | Except.error e => Except.error e
  | Except.ok (a2, m) => Except.ok (pySliceList a2.toList 1 (m + 1))

/-- `graham_scan` from the source: the full pipeline. -/
def graham_scan (points : List Point) : Except PyErr (List Point) :=
  match extract_primary points with
  | Except.error e => Except.error e
  | Except.ok (primary, remaining) =>
      find_hull_vertices (sort_for_graham_scan remaining primary)

/-- Modelled from the spec (§4.2): the pivot rule the spec prescribes — the
per-point lexicographically smallest point (compare `x` first, break ties on
`x` by smallest `y`); first occurrence among full duplicates.  For
comparison with `extract_primary`. -/
def lexMin : List Point → Option Point
  | [] => none
  | p :: ps =>
      some (ps.foldl
        (fun best q =>
          if q.1 < best.1 ∨ (q.1 = best.1 ∧ q.2 < best.2) then q else best)
        p)

/-- C1: on the input point sequence
`[[1,1],[2,5],[3,2],[4,4],[5,2],[6,3],[2,3],[3,4],[5,3]]` (the `main` demo),
`graham_scan` returns exactly the hull `[1,1],[5,2],[6,3],[4,4],[2,5]`, in
that order. -/
theorem c1_demo_input_hull :
    graham_scan
      [((1 : ℤ), (1 : ℤ)), (2, 5), (3, 2), (4, 4), (5, 2), (6, 3), (2, 3),
        (3, 4), (5, 3)] =
    Except.ok [(1, 1), (5, 2), (6, 3), (4, 4), (2, 5)] := by
  rfl

/-- C2: for every three points, `ccw` follows exactly the cascade the spec
states — `dx1*dy2 > dy1*dx2` gives the positive right-turn result `1`,
`dx1*dy2 < dy1*dx2` gives left-turn `-1`, otherwise opposite-signed
x-components or y-components of the two direction vectors give left-turn,
otherwise a strictly smaller squared length of `(dx1, dy1)` gives
right-turn, otherwise collinear `0`. -/
theorem c2_ccw_matches_spec_cascade (p1 p2 p3 : Point) :
    ccw p1 p2 p3 = ccwSpec p1 p2 p3 := by
  unfold ccw ccwSpec
  simp only [mul_neg_iff]

/-- C3 (code bug): on `[[2,1],[3,5]]` the flat `np.argmin` lands on the
y-coordinate of `[2,1]` (flat index 1) and `extract_primary` returns the
point at ROW 1, `[3,5]`, as the pivot — not the per-point lexicographically
smallest point `[2,1]` the spec prescribes. -/
theorem c3_extract_primary_not_lex_min :
    extract_primary [((2 : ℤ), (1 : ℤ)), (3, 5)] =
      Except.ok ((3, 5), [(2, 1)]) ∧
    lexMin [((2 : ℤ), (1 : ℤ)), (3, 5)] = some (2, 1) := by
  exact ⟨rfl, rfl⟩

/-- C4 counterexample: on the empty input the computation does not fail with
the spec's `EmptyInputError` (no such error class exists in the code). -/
theorem c4_empty_not_emptyInputError :
    graham_scan [] ≠ Except.error PyErr.emptyInputError := by
  intro h
  exact PyErr.noConfusion (Except.error.inj h)

/-- C4 amended: on the empty input the hull computation does fail, and the
error that propagates to the caller is numpy's `ValueError` raised by
`np.argmin` on an empty sequence. -/
theorem c4_empty_raises_valueError :
    graham_scan [] = Except.error PyErr.valueError := by
  rfl

/-- C5 (code bug): with pivot `[-1,0]` and a remaining point `[0,5]`
(spec Scenario 6), the division `5 / 0` yields float infinity with only a
warning; the infinite key is sorted last and a hull is returned normally —
no `DegenerateGeometryError` (or any error) is raised. -/
theorem c5_zero_x_returns_hull_without_error :
    slopeKey ((0 : ℤ), (5 : ℤ)) = Slope.posInf ∧
    graham_scan [((-1 : ℤ), (0 : ℤ)), (0, 5), (2, 1), (1, 2)] =
      Except.ok [(-1, 0), (2, 1), (0, 5)] := by
  exact ⟨rfl, rfl⟩

/-- C6 (code bug): the backtracking `while` loop has no `M > 1` guard.  On
the four-duplicate input `[[1,1],[1,1],[1,1],[1,1]]` (duplicates are
permitted by the spec) every orientation test returns `0`, so `M` is
decremented from 3 past the pivot index 1, past the sentinel index 0 and
through the negative-index range until the read at index `-6` is out of
range and the computation dies with an `IndexError` — instead of `M` staying
at least 1 as the claim states. -/
theorem c6_unguarded_backtrack_index_error :
    graham_scan [((1 : ℤ), (1 : ℤ)), (1, 1), (1, 1), (1, 1)] =
      Except.error PyErr.indexError := by
  rfl

/-- C7 (code bug): on the valid input `[[3,1],[5,5],[9,5],[4,7]]` the flat
`np.argmin` picks the interior point `[5,5]` as pivot, and the returned
"hull" `[5,5],[3,1],[9,5],[4,7]` is not convex: its wrap-around triple
`([4,7],[5,5],[3,1])`, tested exactly as the sweep tests triples
(`ccw(later, earlier, next)`), reports `1` — the right-turn/"non-left"
result the spec says must never occur. -/
theorem c7_hull_contains_right_turn :
    graham_scan [((3 : ℤ), (1 : ℤ)), (5, 5), (9, 5), (4, 7)] =
      Except.ok [(5, 5), (3, 1), (9, 5), (4, 7)] ∧
    ccw (5, 5) (4, 7) (3, 1) = 1 := by
  exact ⟨rfl, rfl⟩

/-- C8 (code bug): on `[[2,1],[3,5]]` the returned hull starts with `[3,5]`
(the row the flat `np.argmin` landed on), not with the lexicographically
smallest point `[2,1]` that the Pivot Selector rule defines. -/
theorem c8_first_hull_point_not_lex_min :
    graham_scan [((2 : ℤ), (1 : ℤ)), (3, 5)] =
      Except.ok [(3, 5), (2, 1)] ∧
    lexMin [((2 : ℤ), (1 : ℤ)), (3, 5)] = some (2, 1) ∧
    ((3 : ℤ), (5 : ℤ)) ≠ ((2 : ℤ), (1 : ℤ)) := by
  refine ⟨rfl, rfl, by decide⟩

/-- C10 (code bug): hull computation is not idempotent.  On the valid input
`[[3,1],[5,5],[4,7],[9,5]]` the first pass returns
`[[5,5],[3,1],[9,5],[4,7]]`; re-running `graham_scan` on that hull makes the
flat `np.argmin` land on a different row (`[4,7]`), so the second pass
returns `[[4,7],[3,1],[9,5],[5,5]]` — a different sequence. -/
theorem c10_graham_scan_not_idempotent :
    graham_scan [((3 : ℤ), (1 : ℤ)), (5, 5), (4, 7), (9, 5)] =
      Except.ok [(5, 5), (3, 1), (9, 5), (4, 7)] ∧
    graham_scan [((5 : ℤ), (5 : ℤ)), (3, 1), (9, 5), (4, 7)] =
      Except.ok [(4, 7), (3, 1), (9, 5), (5, 5)] ∧
    ([((5 : ℤ), (5 : ℤ)), (3, 1), (9, 5), (4, 7)] : List Point) ≠
      [(4, 7), (3, 1), (9, 5), (5, 5)] := by
  refine ⟨rfl, rfl, by decide⟩
